import Mathlib

/-!
Verification of the memory-games repository (ReasoningBank-style issue-resolution
agent). This file shallowly embeds the Python sources under src/rb/ — the
lexical MemoryStore (src/rb/memory_store.py) and the attempt pipeline
(src/rb/agent.py) — and proves or refutes the frozen specification claims
about them. External collaborators (sklearn TF-IDF vectors, the subprocess
shell, git, the completion provider) are modelled as explicit parameters or
oracles; all repository-side logic is translated function by function.
-/

set_option maxRecDepth 40000

namespace RB

/-! ### Python string helpers

Whitespace / strip semantics shared by the regex models and str.strip(). -/

/-- ASCII whitespace as matched by Python's regex class \s and by str.strip():
space, tab, newline, carriage return, vertical tab, form feed. -/
def isSpaceChar (c : Char) : Bool :=
  c = ' ' || c = '\t' || c = '\n' || c = '\r' || c.toNat = 11 || c.toNat = 12

/-- Python str.strip() on a character list: drop whitespace from both ends. -/
def stripChars (s : List Char) : List Char :=
  ((s.dropWhile isSpaceChar).reverse.dropWhile isSpaceChar).reverse

/-- Python str.strip() at the String level. -/
def pstrip (s : String) : String := ⟨stripChars s.data⟩

/-- Python substring membership pat in s: some position of s starts with pat. -/
def containsSub (pat : List Char) : List Char → Bool
  | [] => pat.isPrefixOf []
  | c :: t => pat.isPrefixOf (c :: t) || containsSub pat t

/-! ### Data model: MemoryItem (src/rb/memory_store.py, dataclass MemoryItem)

The created_at float timestamp is modelled over ℚ; the free-form source dict
is modelled as an association list. -/

structure MemoryItem where
  title : String
  description : String
  content : String
  outcome : String
  created_at : ℚ
  source : List (String × String)
  deriving DecidableEq

/-- Default record used only to totalise list indexing data[i]; every index the
code produces is in range, so this default is never actually selected. -/
def emptyItem : MemoryItem := ⟨"", "", "", "", 0, []⟩

/-- Python data[i] for the in-range indices produced by search. -/
def nthRec : List MemoryItem → Nat → MemoryItem
  | [], _ => emptyItem
  | a :: _, 0 => a
  | _ :: t, n + 1 => nthRec t n

/-! ### MemoryStore, lexical backend (src/rb/memory_store.py)

The JSONL log is modelled as the list of records it holds (json round trip is
assumed faithful for well-formed lines).  The sklearn TfidfVectorizer +
cosine_similarity computation is an external library call; it is abstracted
as a parameter sim : String → String → ℚ giving the cosine similarity of a
stored document to the query.  Everything after the sims vector — zipping
with positions, Python's stable descending sort, the top_k slice and the
index lookup — is translated directly from MemoryStore.search lines 62-71. -/

/-- The document built for each stored record: d["title"] + "\n" + d["content"]. -/
def docOf (d : MemoryItem) : String := d.title ++ "\n" ++ d.content

/-- The sims vector: similarity of every stored document to the query. -/
def simScores (sim : String → String → ℚ) (data : List MemoryItem) (query : String) :
    List ℚ :=
  data.map (fun d => sim (docOf d) query)

/-- Comparison used to model Python sorted(..., key=lambda x: x[1], reverse=True):
a may precede b iff a's score is at least b's. -/
def byScoreGE (a b : Nat × ℚ) : Prop := b.2 ≤ a.2

instance : DecidableRel byScoreGE := fun a b => inferInstanceAs (Decidable (b.2 ≤ a.2))

instance : IsTotal (Nat × ℚ) byScoreGE := ⟨fun a b => le_total b.2 a.2⟩

instance : IsTrans (Nat × ℚ) byScoreGE := ⟨fun _ _ _ h1 h2 => le_trans h2 h1⟩

/-- ranked (before the [:top_k] slice): sorted(zip(range(len(data)), sims),
key=lambda x: x[1], reverse=True).  Python's sort is stable; insertionSort
with byScoreGE computes exactly that stable descending order. -/
def rankedAll (sim : String → String → ℚ) (data : List MemoryItem) (query : String) :
    List (Nat × ℚ) :=
  List.insertionSort byScoreGE ((List.range data.length).zip (simScores sim data query))

/-- ranked after the [:top_k] slice. -/
def rankedTop (sim : String → String → ℚ) (data : List MemoryItem) (query : String)
    (top_k : Nat) : List (Nat × ℚ) :=
  (rankedAll sim data query).take top_k

/-- MemoryStore.search, lexical branch (lines 62-71): empty store returns [],
otherwise return [data[i] for (i, _) in ranked]. -/
def search (sim : String → String → ℚ) (data : List MemoryItem) (query : String)
    (top_k : Nat) : List MemoryItem :=
  if data.isEmpty then []
  else (rankedTop sim data query top_k).map (fun p => nthRec data p.1)

/-- MemoryStore.add_items, lexical branch (lines 38-41): append each item as a
line at the end of the JSONL log. -/
def add_items (log : List MemoryItem) (items : List MemoryItem) : List MemoryItem :=
  log ++ items

/-! ### Stability of the ranking sort -/

/-- Tie-break property: whenever two ranked entries carry equal scores, the
one inserted earlier (smaller original position) comes first. -/
def tieBreak (a b : Nat × ℚ) : Prop := a.2 = b.2 → a.1 < b.1

theorem pairwise_orderedInsert_tieBreak (Q : Nat × ℚ → Nat × ℚ → Prop) (a : Nat × ℚ) :
    ∀ l : List (Nat × ℚ), l.Pairwise Q → (∀ b ∈ l, Q a b) →
      (∀ b, ¬ byScoreGE a b → Q b a) →
      (List.orderedInsert byScoreGE a l).Pairwise Q := by
  intro l
  induction l with
  | nil => intro _ _ _; simp
  | cons b t ih =>
    intro hpw hab hba
    by_cases hr : byScoreGE a b
    · rw [List.orderedInsert, if_pos hr]
      exact List.Pairwise.cons (fun y hy => hab y hy) hpw
    · rw [List.orderedInsert, if_neg hr]
      rcases List.pairwise_cons.mp hpw with ⟨hbt, hpt⟩
      refine List.Pairwise.cons ?_ (ih hpt (fun y hy => hab y (List.mem_cons_of_mem _ hy)) hba)
      intro y hy
      rcases (List.mem_orderedInsert byScoreGE).mp hy with rfl | hyt
      · exact hba b hr
      · exact hbt y hyt

theorem pairwise_insertionSort_tieBreak :
    ∀ l : List (Nat × ℚ), l.Pairwise (fun x y => x.1 < y.1) →
      (List.insertionSort byScoreGE l).Pairwise tieBreak := by
  intro l
  induction l with
  | nil => intro _; simp
  | cons x t ih =>
    intro hpw
    rcases List.pairwise_cons.mp hpw with ⟨hxt, hpt⟩
    refine pairwise_orderedInsert_tieBreak tieBreak x _ (ih hpt) ?_ ?_
    · intro b hb
      have hbt : b ∈ t := (List.mem_insertionSort byScoreGE).mp hb
      exact fun _ => hxt b hbt
    · intro b hnr heq
      exact absurd (le_of_eq heq) hnr

/-- The zipped (position, score) list has strictly increasing positions. -/
theorem pairwise_fst_lt_zip_range (n : Nat) (l : List ℚ) (hl : n ≤ l.length) :
    ((List.range n).zip l).Pairwise (fun x y : Nat × ℚ => x.1 < y.1) := by
  have hmap : ((List.range n).zip l).map Prod.fst = List.range n := by
    apply List.map_fst_zip
    simpa using hl
  have := List.pairwise_lt_range n
  rw [← hmap] at this
  exact List.pairwise_map.mp this

theorem nthRec_mem : ∀ (l : List MemoryItem) (i : Nat), i < l.length → nthRec l i ∈ l := by
  intro l
  induction l with
  | nil => intro i hi; simp at hi
  | cons a t ih =>
    intro i hi
    cases i with
    | zero => exact List.mem_cons_self a t
    | succ j => exact List.mem_cons_of_mem a (ih j (Nat.lt_of_succ_lt_succ hi))

/-! ### Claim theorems for the MemoryStore -/

/-- C1: on a non-empty lexical store and top_k ≥ 1, search returns at most
top_k records, each of which is one of the records stored in the log, and
the result is the position-wise image of a ranked list whose similarity
scores are non-increasing. -/
theorem C1_search_bounded_members_sorted (sim : String → String → ℚ)
    (data : List MemoryItem) (query : String) (top_k : Nat)
    (hne : data ≠ []) (hk : 1 ≤ top_k) :
    (search sim data query top_k).length ≤ top_k ∧
    (∀ r ∈ search sim data query top_k, r ∈ data) ∧
    (rankedTop sim data query top_k).Sorted byScoreGE ∧
    search sim data query top_k =
      (rankedTop sim data query top_k).map (fun p => nthRec data p.1) := by
  have hni : data.isEmpty = false := by
    cases data with
    | nil => exact absurd rfl hne
    | cons a t => rfl
  have hsearch : search sim data query top_k =
      (rankedTop sim data query top_k).map (fun p => nthRec data p.1) := by
    rw [search, hni]
    rfl
  have hmem : ∀ p ∈ rankedTop sim data query top_k, p.1 < data.length := by
    intro p hp
    have hp1 : p ∈ rankedAll sim data query :=
      (List.take_sublist _ _).subset hp
    have hp2 : p ∈ (List.range data.length).zip (simScores sim data query) :=
      (List.mem_insertionSort byScoreGE).mp hp1
    rcases p with ⟨i, s⟩
    have := (List.of_mem_zip hp2).1
    simpa using this
  refine ⟨?_, ?_, ?_, hsearch⟩
  · rw [hsearch, List.length_map, rankedTop, List.length_take]
    exact min_le_left _ _
  · intro r hr
    rw [hsearch] at hr
    rcases List.mem_map.mp hr with ⟨p, hp, rfl⟩
    exact nthRec_mem data p.1 (hmem p hp)
  · have hs := List.sorted_insertionSort byScoreGE
      ((List.range data.length).zip (simScores sim data query))
    exact hs.sublist (List.take_sublist _ _)

/-- C1 witness: concrete instantiation on a one-record store. -/
theorem C1_witness :
    (([⟨"a", "b", "c", "success", 0, []⟩] : List MemoryItem) ≠ [] ∧ 1 ≤ 1) ∧
    ((search (fun _ _ => 0) [⟨"a", "b", "c", "success", 0, []⟩] "q" 1).length ≤ 1 ∧
     (∀ r ∈ search (fun _ _ => 0) [⟨"a", "b", "c", "success", 0, []⟩] "q" 1,
        r ∈ [(⟨"a", "b", "c", "success", 0, []⟩ : MemoryItem)]) ∧
     (rankedTop (fun _ _ => 0) [⟨"a", "b", "c", "success", 0, []⟩] "q" 1).Sorted byScoreGE ∧
     search (fun _ _ => 0) [⟨"a", "b", "c", "success", 0, []⟩] "q" 1 =
       (rankedTop (fun _ _ => 0) [⟨"a", "b", "c", "success", 0, []⟩] "q" 1).map
         (fun p => nthRec [⟨"a", "b", "c", "success", 0, []⟩] p.1)) :=
  ⟨⟨by simp, le_refl 1⟩,
   C1_search_bounded_members_sorted (fun _ _ => 0) _ "q" 1 (by simp) (le_refl 1)⟩

/-- C2: search on an empty lexical store returns the empty sequence for every
query and top_k ≥ 1 (and, being a total function, never raises). -/
theorem C2_search_empty_store (sim : String → String → ℚ) (query : String)
    (top_k : Nat) (hk : 1 ≤ top_k) :
    search sim [] query top_k = [] := rfl

/-- C2 witness: concrete instantiation. -/
theorem C2_witness :
    1 ≤ (1 : Nat) ∧ search (fun _ _ => 0) [] "anything" 1 = [] :=
  ⟨le_refl 1, C2_search_empty_store (fun _ _ => 0) "anything" 1 (le_refl 1)⟩

/-- C8: the ranked list (both before and after the top_k slice) is stable —
whenever two entries carry equal similarity scores, the record inserted
earlier in the log (smaller original position) ranks first; search reads its
results off that list in order. -/
theorem C8_stable_tiebreak (sim : String → String → ℚ) (data : List MemoryItem)
    (query : String) (top_k : Nat) :
    (rankedAll sim data query).Pairwise tieBreak ∧
    (rankedTop sim data query top_k).Pairwise tieBreak := by
  have hall : (rankedAll sim data query).Pairwise tieBreak := by
    apply pairwise_insertionSort_tieBreak
    apply pairwise_fst_lt_zip_range
    simp [simScores]
  exact ⟨hall, hall.sublist (List.take_sublist _ _)⟩

/-- C9: after add_items([item]) into an otherwise empty store,
search(item.title, top_k=1) returns exactly that item. -/
theorem C9_add_then_search (sim : String → String → ℚ) (it : MemoryItem) :
    search sim (add_items [] [it]) it.title 1 = [it] := rfl

/-! ### Regex models for extract_memory (src/rb/agent.py lines 79-98)

The three subfield regexes re.search(r"##\s*KW\s*(.+)", blk) (with re.DOTALL
for Content) and the block split re.split(r"(?m)^# Memory Item .*?$", out)
are modelled with Python's exact leftmost-match and greedy-backtracking
semantics over character lists. -/

/-- One attempt of the regex tail \s*(.+) after \s* has consumed k characters:
(.+) must then match at least one character; without re.DOTALL '.' excludes
newline and the greedy group is the run of non-newline characters, with
re.DOTALL the greedy group is the whole remainder. -/
def tailAttempt (dotall : Bool) (s : List Char) (k : Nat) : Option (List Char) :=
  match s.drop k with
  | [] => none
  | c :: t =>
    if dotall then some (c :: t)
    else if c = '\n' then none
    else some ((c :: t).takeWhile (fun x => x ≠ '\n'))

/-- Greedy-then-backtrack: \s* first consumes k characters and gives back one
character at a time until the (.+) tail can match. -/
def tailBacktrack (dotall : Bool) (s : List Char) : Nat → Option (List Char)
  | 0 => tailAttempt dotall s 0
  | k + 1 =>
    match tailAttempt dotall s (k + 1) with
    | some g => some g
    | none => tailBacktrack dotall s k

/-- Group semantics of \s*(.+) starting at s: \s* greedily takes the maximal
whitespace run, then backtracks. -/
def tailGroup (dotall : Bool) (s : List Char) : Option (List Char) :=
  tailBacktrack dotall s (s.takeWhile isSpaceChar).length

/-- Attempt of ##\s*KW\s*(.+) anchored at the start of s: two hashes, a
greedy whitespace run (no shorter run can be followed by the keyword, whose
first character is not whitespace), the literal keyword, then the tail. -/
def matchKWAt (kw : List Char) (dotall : Bool) (s : List Char) : Option (List Char) :=
  if ['#', '#'].isPrefixOf s then
    let r2 := (s.drop 2).dropWhile isSpaceChar
    if kw.isPrefixOf r2 then tailGroup dotall (r2.drop kw.length) else none
  else none

/-- re.search for ##\s*KW\s*(.+): the match at the leftmost position where
the whole pattern succeeds; returns group(1). -/
def searchKW (kw : List Char) (dotall : Bool) : List Char → Option (List Char)
  | [] => none
  | c :: t =>
    match matchKWAt kw dotall (c :: t) with
    | some g => some g
    | none => searchKW kw dotall t

/-- The lines of a text: split at newline characters. -/
def splitLines : List Char → List (List Char)
  | [] => [[]]
  | c :: t =>
    match splitLines t with
    | h :: r => if c = '\n' then [] :: h :: r else (c :: h) :: r
    | [] => [[]]

/-- A line matched by the delimiter regex (?m)^# Memory Item .*?$ : the lazy
tail expands to the line end (the only position where $ can hold), so the
match consumes the whole line iff the line starts with "# Memory Item ". -/
def isDelimLine (l : List Char) : Bool := "# Memory Item ".data.isPrefixOf l

/-- Split the line list at delimiter lines, dropping them, keeping empty
segments. -/
def splitSegs : List (List Char) → List (List (List Char))
  | [] => [[]]
  | l :: t =>
    match splitSegs t with
    | h :: r => if isDelimLine l then [] :: h :: r else (l :: h) :: r
    | [] => [[]]

/-- Rejoin a segment of lines with newlines. -/
def joinLines : List (List Char) → List Char
  | [] => []
  | [l] => l
  | l :: l' :: t => l ++ '\n' :: joinLines (l' :: t)

/-- re.split(r"(?m)^# Memory Item .*?$", out): each delimiter match consumes
exactly its own line, so the newline before it stays with the preceding
block and the newline after it with the following block — modelled by an
empty pseudo-line at every segment edge that touches a delimiter. -/
def splitBlocks (out : String) : List String :=
  let segs := splitSegs (splitLines out.data)
  let m := segs.length - 1
  segs.enum.map (fun p =>
    ⟨joinLines ((if 0 < p.1 then [[]] else []) ++ p.2 ++ (if p.1 < m then [[]] else []))⟩)

def titleKW : List Char := "Title".data

def descriptionKW : List Char := "Description".data

def contentKW : List Char := "Content".data

/-- t = re.search(r"##\s*Title\s*(.+)", blk), as its group(1). -/
def findTitle (blk : String) : Option (List Char) := searchKW titleKW false blk.data

/-- d = re.search(r"##\s*Description\s*(.+)", blk), as its group(1). -/
def findDescription (blk : String) : Option (List Char) :=
  searchKW descriptionKW false blk.data

/-- c = re.search(r"##\s*Content\s*(.+)", blk, re.DOTALL), as its group(1). -/
def findContent (blk : String) : Option (List Char) := searchKW contentKW true blk.data

/-- The fixed source map given to every distilled item. -/
def rbSource : List (String × String) := [("type", "code"), ("notes", "rb-run")]

/-- One iteration of the parse loop in extract_memory: the block contributes
an item iff all three subfield regexes match (if t and d and c); the stored
fields are the stripped groups. -/
def parseBlock (outcome : String) (ct : ℚ) (blk : String) : Option MemoryItem :=
  match findTitle blk, findDescription blk, findContent blk with
  | some t, some d, some c =>
    some ⟨⟨stripChars t⟩, ⟨stripChars d⟩, ⟨stripChars c⟩, outcome, ct, rbSource⟩
  | _, _, _ => none

/-- The parsing done by extract_memory (src/rb/agent.py lines 83-98) on the
distillation response out: split into blocks, parse each block, return the
first three items. time.time() is modelled by the ct parameter. -/
def extractMemoryItems (out : String) (outcome : String) (ct : ℚ) : List MemoryItem :=
  ((splitBlocks out).filterMap (parseBlock outcome ct)).take 3

/-- A block is well formed iff the Title, Description and Content regexes all
match in it. -/
def wellFormedBlock (blk : String) : Bool :=
  (findTitle blk).isSome && (findDescription blk).isSome && (findContent blk).isSome

/-- The item built from a well-formed block (the defaults are never used on a
well-formed block). -/
def mkItem (outcome : String) (ct : ℚ) (blk : String) : MemoryItem :=
  ⟨⟨stripChars ((findTitle blk).getD [])⟩,
   ⟨stripChars ((findDescription blk).getD [])⟩,
   ⟨stripChars ((findContent blk).getD [])⟩, outcome, ct, rbSource⟩

theorem parseBlock_eq_ite (outcome : String) (ct : ℚ) (blk : String) :
    parseBlock outcome ct blk =
      if wellFormedBlock blk then some (mkItem outcome ct blk) else none := by
  rcases ht : findTitle blk with _ | t <;> rcases hd : findDescription blk with _ | d <;>
    rcases hc : findContent blk with _ | c <;>
      simp [parseBlock, wellFormedBlock, mkItem, ht, hd, hc]

theorem filterMap_parseBlock (outcome : String) (ct : ℚ) :
    ∀ l : List String, l.filterMap (parseBlock outcome ct) =
      (l.filter wellFormedBlock).map (mkItem outcome ct) := by
  intro l
  induction l with
  | nil => rfl
  | cons b t ih =>
    rw [List.filterMap_cons, List.filter_cons, parseBlock_eq_ite]
    cases hw : wellFormedBlock b with
    | false => simp [hw, ih]
    | true => simp [hw, ih]

/-- Example response with exactly 2 well-formed memory blocks. -/
def resp2 : String :=
  "# Memory Item 1\n## Title A\n## Description B\n## Content C\n# Memory Item 2\n## Title D\n## Description E\n## Content F"

/-- Example response with 4 well-formed memory blocks. -/
def resp4 : String :=
  "# Memory Item 1\n## Title A\n## Description B\n## Content C\n# Memory Item 2\n## Title D\n## Description E\n## Content F\n# Memory Item 3\n## Title G\n## Description H\n## Content I\n# Memory Item 4\n## Title J\n## Description K\n## Content L"

/-- Example response whose middle block is missing the Content subfield. -/
def respMissing : String :=
  "# Memory Item 1\n## Title A\n## Description B\n## Content C\n# Memory Item 2\n## Title D\n## Description E\n# Memory Item 3\n## Title G\n## Description H\n## Content I"

/-- C4: extract_memory yields exactly one item per well-formed block, capped
at 3, in block order: the items are the images of the first well-formed
blocks; a response with 2 well-formed blocks yields those 2 items, one with
4 yields the first 3, and a block missing Content is discarded while the
other well-formed blocks are kept. -/
theorem C4_extract_memory_blocks (out outcome : String) (ct : ℚ) :
    extractMemoryItems out outcome ct =
      (((splitBlocks out).filter wellFormedBlock).map (mkItem outcome ct)).take 3 ∧
    (extractMemoryItems out outcome ct).length =
      min ((splitBlocks out).countP wellFormedBlock) 3 ∧
    extractMemoryItems resp2 outcome ct =
      [⟨"A", "B", "C", outcome, ct, rbSource⟩, ⟨"D", "E", "F", outcome, ct, rbSource⟩] ∧
    extractMemoryItems resp4 outcome ct =
      [⟨"A", "B", "C", outcome, ct, rbSource⟩, ⟨"D", "E", "F", outcome, ct, rbSource⟩,
       ⟨"G", "H", "I", outcome, ct, rbSource⟩] ∧
    extractMemoryItems respMissing outcome ct =
      [⟨"A", "B", "C", outcome, ct, rbSource⟩, ⟨"G", "H", "I", outcome, ct, rbSource⟩] := by
  refine ⟨?_, ?_, rfl, rfl, rfl⟩
  · rw [extractMemoryItems, filterMap_parseBlock]
  · rw [extractMemoryItems, filterMap_parseBlock, List.length_take, List.length_map,
      ← List.countP_eq_length_filter, Nat.min_comm]

theorem tailAttempt_ne_nil (dotall : Bool) (s : List Char) (k : Nat) (g : List Char)
    (h : tailAttempt dotall s k = some g) : g ≠ [] := by
  rw [tailAttempt] at h
  split at h
  next => exact absurd h (by simp)
  next c t =>
    split at h
    next =>
      obtain rfl := Option.some.inj h
      simp
    next =>
      split at h
      next => exact absurd h (by simp)
      next hc =>
        obtain rfl := Option.some.inj h
        simp [List.takeWhile_cons, hc]

theorem tailBacktrack_ne_nil (dotall : Bool) (s : List Char) :
    ∀ (k : Nat) (g : List Char), tailBacktrack dotall s k = some g → g ≠ [] := by
  intro k
  induction k with
  | zero => exact fun g h => tailAttempt_ne_nil dotall s 0 g h
  | succ j ih =>
    intro g h
    rw [tailBacktrack] at h
    rcases ha : tailAttempt dotall s (j + 1) with _ | g' <;> rw [ha] at h
    · exact ih g h
    · obtain rfl := Option.some.inj h
      exact tailAttempt_ne_nil dotall s (j + 1) g' ha

theorem tailGroup_ne_nil (dotall : Bool) (s : List Char) (g : List Char)
    (h : tailGroup dotall s = some g) : g ≠ [] :=
  tailBacktrack_ne_nil dotall s _ g h

theorem matchKWAt_ne_nil (kw : List Char) (dotall : Bool) (s : List Char) (g : List Char)
    (h : matchKWAt kw dotall s = some g) : g ≠ [] := by
  rw [matchKWAt] at h
  split at h
  · dsimp only at h
    split at h
    · exact tailGroup_ne_nil dotall _ g h
    · exact absurd h (by simp)
  · exact absurd h (by simp)

theorem searchKW_ne_nil (kw : List Char) (dotall : Bool) :
    ∀ (s g : List Char), searchKW kw dotall s = some g → g ≠ [] := by
  intro s
  induction s with
  | nil => intro g h; exact absurd h (by simp [searchKW])
  | cons c t ih =>
    intro g h
    rw [searchKW] at h
    rcases hm : matchKWAt kw dotall (c :: t) with _ | g' <;> rw [hm] at h
    · exact ih g h
    · obtain rfl := Option.some.inj h
      exact matchKWAt_ne_nil kw dotall (c :: t) g' hm

/-- C5 (amended): every MemoryItem produced by the distillation parsing has
its three text fields equal to the whitespace-stripped regex captures of a
block in which all three subfield regexes matched, each capture being
non-empty before stripping; a block in which some subfield regex fails to
match is discarded.  After trimming, however, a stored field may be empty:
the code checks only that the regexes matched, never non-emptiness of the
trimmed text (see the counterexample). -/
theorem C5_amended_trimmed_captures (out outcome : String) (ct : ℚ) (it : MemoryItem)
    (hit : it ∈ extractMemoryItems out outcome ct) :
    it.outcome = outcome ∧
    ∃ blk ∈ splitBlocks out, ∃ t d c : List Char,
      findTitle blk = some t ∧ t ≠ [] ∧ it.title = ⟨stripChars t⟩ ∧
      findDescription blk = some d ∧ d ≠ [] ∧ it.description = ⟨stripChars d⟩ ∧
      findContent blk = some c ∧ c ≠ [] ∧ it.content = ⟨stripChars c⟩ := by
  have hmem : it ∈ (splitBlocks out).filterMap (parseBlock outcome ct) :=
    (List.take_sublist _ _).subset hit
  rcases List.mem_filterMap.mp hmem with ⟨blk, hblk, hp⟩
  rw [parseBlock] at hp
  rcases ht : findTitle blk with _ | t <;> rw [ht] at hp
  · exact absurd hp (by simp)
  rcases hd : findDescription blk with _ | d <;> rw [hd] at hp
  · exact absurd hp (by simp)
  rcases hc : findContent blk with _ | c <;> rw [hc] at hp
  · exact absurd hp (by simp)
  obtain rfl := Option.some.inj hp
  exact ⟨rfl, blk, hblk, t, d, c,
    ht, searchKW_ne_nil titleKW false blk.data t ht, rfl,
    hd, searchKW_ne_nil descriptionKW false blk.data d hd, rfl,
    hc, searchKW_ne_nil contentKW true blk.data c hc, rfl⟩

/-- Distillation response whose single block carries a Title line with only
trailing whitespace: the Title regex still matches (the group captures a
single space after backtracking), so the parsed title is empty after
trimming. -/
def respBlankTitle : String :=
  "# Memory Item 1\n## Description d\n## Content c\n## Title "

/-- C5 counterexample: on respBlankTitle the code stores exactly one item and
its title is the empty string after trimming — a block whose text field is
empty after trimming is kept, not discarded. -/
theorem C5_counterexample_blank_title :
    (extractMemoryItems respBlankTitle "failure" 0).map MemoryItem.title = [""] := rfl

/-- C5 witness: the amended theorem applied to a concrete parsed item. -/
theorem C5_witness :
    (⟨"A", "B", "C", "failure", 0, rbSource⟩ : MemoryItem) ∈
        extractMemoryItems resp2 "failure" 0 ∧
    ((⟨"A", "B", "C", "failure", 0, rbSource⟩ : MemoryItem).outcome = "failure" ∧
     ∃ blk ∈ splitBlocks resp2, ∃ t d c : List Char,
       findTitle blk = some t ∧ t ≠ [] ∧
         (⟨"A", "B", "C", "failure", 0, rbSource⟩ : MemoryItem).title = ⟨stripChars t⟩ ∧
       findDescription blk = some d ∧ d ≠ [] ∧
         (⟨"A", "B", "C", "failure", 0, rbSource⟩ : MemoryItem).description = ⟨stripChars d⟩ ∧
       findContent blk = some c ∧ c ≠ [] ∧
         (⟨"A", "B", "C", "failure", 0, rbSource⟩ : MemoryItem).content = ⟨stripChars c⟩) := by
  have he : extractMemoryItems resp2 "failure" 0 =
      [⟨"A", "B", "C", "failure", 0, rbSource⟩,
       ⟨"D", "E", "F", "failure", 0, rbSource⟩] := rfl
  have hm : (⟨"A", "B", "C", "failure", 0, rbSource⟩ : MemoryItem) ∈
      extractMemoryItems resp2 "failure" 0 := by
    rw [he]
    exact List.mem_cons_self _ _
  exact ⟨hm, C5_amended_trimmed_captures resp2 "failure" 0 _ hm⟩

/-! ### extract_patch (src/rb/agent.py lines 59-66)

Models re.search of the fence pattern (three backticks, an optional diff or
patch tag, a newline, a lazy body group, then newline and three backticks)
with re.DOTALL, followed by strip, followed by the marker check whose two
branches both return the same value. -/

/-- Fence opening at the current position: literal three backticks, then the
optional tag — the alternatives diff, patch and empty are tried in order and
each must be followed by a newline (no shorter whitespace backtracking is
possible since the alternatives are literals).  On success returns the text
after the opening newline. -/
def fenceOpenAt (s : List Char) : Option (List Char) :=
  if ("```".data).isPrefixOf s then
    let r := s.drop 3
    if ("diff\n".data).isPrefixOf r then some (r.drop 5)
    else if ("patch\n".data).isPrefixOf r then some (r.drop 6)
    else if ("\n".data).isPrefixOf r then some (r.drop 1)
    else none
  else none

/-- The lazy group (.*?) before the closing sequence: the shortest prefix
that is immediately followed by a newline and three backticks; none if no
closing sequence exists in the remainder. -/
def closeSplit : List Char → Option (List Char)
  | [] => none
  | c :: t =>
    if ("\n```".data).isPrefixOf (c :: t) then some []
    else (closeSplit t).map (fun g => c :: g)

/-- Leftmost match of the whole fence pattern: scan positions left to right;
at each position the opening must match and a closing sequence must exist
further right, otherwise scanning continues at the next character. -/
def findFence : List Char → Option (List Char)
  | [] => none
  | c :: t =>
    match fenceOpenAt (c :: t) with
    | some rest =>
      match closeSplit rest with
      | some g => some g
      | none => findFence t
    | none => findFence t

/-- The unified-diff marker check of extract_patch lines 63-66: both the
then-branch and the else-branch return patch unchanged. -/
def markerCheck (patch : String) : String :=
  if (containsSub "--- ".data patch.data && containsSub "+++ ".data patch.data &&
      containsSub "@@ ".data patch.data) = true then patch
  else patch

/-- extract_patch (src/rb/agent.py lines 59-66): take the first fenced block
body if one exists, else the raw response, strip it, then run the marker
check. -/
def extract_patch (text : String) : String :=
  markerCheck
    (match findFence text.data with
     | some g => (⟨stripChars g⟩ : String)
     | none => (⟨stripChars text.data⟩ : String))

/-- Fence extraction followed by strip, with no validation step at all. -/
def fenceExtractStrip (text : String) : String :=
  match findFence text.data with
  | some g => (⟨stripChars g⟩ : String)
  | none => (⟨stripChars text.data⟩ : String)

/-- C10: extract_patch performs no validation — the marker check never
changes the returned value, so extract_patch equals fence-extraction-plus-
strip on all inputs: the stripped body of the first fenced code block when
one is present, the stripped raw response otherwise. -/
theorem C10_extract_patch_no_validation (text : String) :
    extract_patch text = fenceExtractStrip text ∧
    extract_patch text =
      (match findFence text.data with
       | some g => (⟨stripChars g⟩ : String)
       | none => (⟨stripChars text.data⟩ : String)) := by
  have hm : ∀ p : String, markerCheck p = p := by
    intro p
    rw [markerCheck]
    exact ite_self p
  exact ⟨hm _, hm _⟩

example : extract_patch "```diff\n--- a\n+++ b\n```" = "--- a\n+++ b" := rfl

example : extract_patch "```patch\nxx\n```trailing" = "xx" := rfl

example : extract_patch "```python\ncode\n```" = "```python\ncode\n```" := rfl

example : extract_patch "  raw text  " = "raw text" := rfl

example : extract_patch "pre ```diff\nA\n``` post" = "A" := rfl

/-! ### The subprocess runner run (src/rb/agent.py lines 10-17) -/

/-- Outcome of one shell invocation: either the child completed with an exit
code and combined output, or the timeout expired first.  A shell-run child
can complete with any exit code, including 124. -/
inductive ProcOutcome where
  | completed (code : Int) (out : String)
  | timedOut
  deriving DecidableEq

/-- run(cmd, cwd, timeout): on completion returns (returncode, output); on
subprocess.TimeoutExpired the child is killed and the fixed pair
(124, "TIMEOUT running: " + cmd) is returned — the exception is caught
inside run, which is therefore total and never propagates it. -/
def run (cmd : String) (oc : ProcOutcome) : Int × String :=
  match oc with
  | .completed code out => (code, out)
  | .timedOut => (124, "TIMEOUT running: " ++ cmd)

/-- C6 (amended): when the timeout expires, run returns the fixed non-zero
sentinel exit code 124 together with a timeout message and never propagates
the exception; the sentinel is however not distinct from the exit codes a
real process invocation can return (see the counterexample). -/
theorem C6_amended_timeout_sentinel (cmd : String) :
    run cmd .timedOut = (124, "TIMEOUT running: " ++ cmd) ∧ (124 : Int) ≠ 0 :=
  ⟨rfl, by decide⟩

/-- C6 counterexample: a real, non-timed-out invocation can itself exit with
code 124 (for instance the shell command exit 124), and run then returns the
very same exit code as the timeout sentinel — the sentinel is not distinct
from real exit codes. -/
theorem C6_counterexample_sentinel_collision :
    (run "exit 124" (.completed 124 "")).1 = 124 ∧
    (run "exit 124" .timedOut).1 = 124 ∧
    run "exit 124" (.completed 124 "") ≠ run "exit 124" .timedOut := by
  refine ⟨rfl, rfl, ?_⟩
  intro h
  have h2 := congrArg Prod.snd h
  simp only [run] at h2
  exact absurd h2 (by decide)

/-! ### apply_patch (src/rb/agent.py lines 31-40) -/

/-- The git collaborator used by apply_patch: applying a patch text to a
working tree yields an exit code, combined output and the resulting tree;
diff captures the output of git diff on a tree. -/
structure GitEnv (τ : Type) where
  gitApply : τ → String → Int × String × τ
  diff : τ → String

/-- apply_patch(repo, patch_text): if the literal sentinel NO_PATCH_NEEDED
occurs anywhere in the patch text, return success with log
"No patch needed." without invoking git apply; otherwise write the patch to
a temp file and run git apply --reject --whitespace=nowarn, success iff the
exit code is 0.  The value is ((ok, log), resulting tree, whether git apply
was invoked). -/
def apply_patch {τ : Type} (git : GitEnv τ) (tree : τ) (patch_text : String) :
    (Bool × String) × τ × Bool :=
  if containsSub "NO_PATCH_NEEDED".data patch_text.data then
    ((true, "No patch needed."), tree, false)
  else
    let r := git.gitApply tree patch_text
    ((r.1 == 0, r.2.1), r.2.2, true)

/-- C7: for every patch text containing the literal NO_PATCH_NEEDED,
apply_patch reports success without invoking git apply and with no tree
modification, and the workspace diff — empty beforehand — is left empty. -/
theorem C7_no_patch_needed_frame {τ : Type} (git : GitEnv τ) (tree : τ)
    (patch_text : String)
    (hs : containsSub "NO_PATCH_NEEDED".data patch_text.data = true)
    (hdiff : git.diff tree = "") :
    apply_patch git tree patch_text = ((true, "No patch needed."), tree, false) ∧
    git.diff (apply_patch git tree patch_text).2.1 = "" := by
  have he : apply_patch git tree patch_text = ((true, "No patch needed."), tree, false) := by
    rw [apply_patch, if_pos hs]
  refine ⟨he, ?_⟩
  rw [he]
  exact hdiff

/-- A trivial git collaborator over a unit tree whose diff is empty. -/
def gitUnit : GitEnv Unit :=
  ⟨fun _ _ => (1, "error: patch failed", ()), fun _ => ""⟩

/-- C7 witness: concrete instantiation on a patch containing the sentinel. -/
theorem C7_witness :
    (containsSub "NO_PATCH_NEEDED".data ("abc NO_PATCH_NEEDED xyz".data) = true ∧
     gitUnit.diff () = "") ∧
    (apply_patch gitUnit () "abc NO_PATCH_NEEDED xyz" =
        ((true, "No patch needed."), (), false) ∧
     gitUnit.diff (apply_patch gitUnit () "abc NO_PATCH_NEEDED xyz").2.1 = "") :=
  ⟨⟨by decide, rfl⟩, C7_no_patch_needed_frame gitUnit () _ (by decide) rfl⟩

/-! ### Prompt constants used by the pipeline (src/rb/prompts.py) -/

def SYSTEM_MEMORY_HEADER : String :=
  "You have access to a small ReasoningBank of distilled strategies from prior attempts.\nBefore acting, briefly state whether each retrieved item is relevant to this issue, then continue.\n"

def EXTRACT_SUCCESS_PROMPT : String :=
  "You are an expert code maintainer. From this **successful** attempt,\ndistill up to 3 short **memory items** that will help with future, similar issues.\n\nRules:\n- Focus on *generalizable strategies*, not repo-specific strings.\n- Avoid redundancy; be concise and actionable.\n- Each item must have Title, one-line Description, and Content (1–3 sentences).\n\nFormat strictly:\n\n# Memory Item i\n## Title <concise title>\n## Description <one sentence>\n## Content <1–3 sentences>\n"

def EXTRACT_FAILURE_PROMPT : String :=
  "You are an expert code maintainer. From this **failed** attempt,\ndistill up to 3 short **memory items** on *what to avoid* and *how to recover next time*.\n\nRules:\n- Reflect on *why* it failed (bad test strategy, misreading traceback, wrong file, etc.).\n- Convert mistakes into preventative heuristics.\n- Avoid repo-specific strings; keep it general.\n- Each item must have Title, one-line Description, and Content (1–3 sentences).\n\nFormat strictly:\n\n# Memory Item i\n## Title <concise title>\n## Description <one sentence>\n## Content <1–3 sentences>\n"

def SEQUENTIAL_REFINE_INSTRUCTION_1 : String :=
  "First-time check: carefully re-examine your previous reasoning and patch.\nVerify: (1) failing tests addressed? (2) correct file/function? (3) any linting/syntax issues? If incorrect, propose a corrected patch.\nAlways return a *unified diff* patch if any change is needed.\n"

/-- Python str() of a bool inside an f-string. -/
def pyBool (b : Bool) : String := if b then "True" else "False"

/-! ### attempt_once (src/rb/agent.py lines 100-135)

The collaborators are oracles: the completion service is a function of the
(system, user) prompt pair, the store retrieval result, the git plumbing
outputs and the test-process outcome are environment fields; the working
tree has abstract type τ and is threaded through checkout and the two
possible apply calls.  An event trace records the collaborator calls the
pipeline makes, in order. -/

/-- External collaborators of attempt_once. -/
structure AttemptEnv (τ : Type) where
  complete : String → String → String
  retrieved : List MemoryItem
  revParseCode : Int
  checkout : String → τ → τ
  statusOut : String
  logOut : String
  git : GitEnv τ
  testOutcome : τ → ProcOutcome
  time : ℚ

/-- The mem_block loop of build_system (agent.py lines 50-54), enumerating
retrieved records from 1. -/
def buildMemBlock : Nat → List MemoryItem → String
  | _, [] => ""
  | i, m :: rest =>
    "\n[Memory " ++ toString i ++ "] " ++ pstrip m.title ++ "\n" ++ pstrip m.content ++
      "\n" ++ buildMemBlock (i + 1) rest

/-- build_system (agent.py lines 49-55). -/
def build_system (retrieved : List MemoryItem) : String :=
  let mem_block := buildMemBlock 1 retrieved
  SYSTEM_MEMORY_HEADER ++
    (if mem_block = "" then "\n(No relevant memory retrieved.)"
     else "\nRetrieved:\n" ++ mem_block)

/-- build_user (agent.py line 57); the test_cmd argument is accepted but not
interpolated by the f-string in the source. -/
def build_user (issue_text repo_state test_cmd : String) : String :=
  "Issue:\n" ++ pstrip issue_text ++ "\n\nRepo summary:\n" ++ repo_state ++
    "\n\nTask:\nPropose a minimal code patch (unified diff) that resolves the issue and makes tests pass.\n- Only output the patch, nothing else.\n- If the repo needs additional tests or small refactors, include them.\n- Keep changes focused.\n"

/-- summarize_repo_state (agent.py lines 42-47): strip the git status and
last-commit outputs into the summary string. -/
def summarize_repo_state {τ : Type} (env : AttemptEnv τ) : String :=
  "STATUS:\n" ++ pstrip env.statusOut ++ "\n\nLAST COMMIT:\n" ++ pstrip env.logOut

/-- Collaborator calls made by attempt_once, in pipeline order. -/
inductive Ev where
  | evSearch
  | evGenComplete
  | evApply (ok : Bool)
  | evRefineComplete
  | evRefineApply (ok : Bool)
  | evTest (code : Int)
  | evDistill
  | evAdd (n : Nat)
  deriving DecidableEq

/-- The dict returned by attempt_once (agent.py lines 128-135). -/
structure AttemptResult where
  branch : String
  success : Bool
  test_log : String
  traj_log : String
  retrieved : List MemoryItem
  memory_added : List MemoryItem

/-- The system prompt of the generation step. -/
def genSystem {τ : Type} (env : AttemptEnv τ) : String := build_system env.retrieved

/-- The user prompt of the generation step. -/
def genUser {τ : Type} (env : AttemptEnv τ) (issue_text test_cmd : String) : String :=
  build_user issue_text (summarize_repo_state env) test_cmd

/-- model_out = llm.complete(system, user). -/
def genModelOut {τ : Type} (env : AttemptEnv τ) (issue_text test_cmd : String) : String :=
  env.complete (genSystem env) (genUser env issue_text test_cmd)

/-- patch = extract_patch(model_out). -/
def genPatch {τ : Type} (env : AttemptEnv τ) (issue_text test_cmd : String) : String :=
  extract_patch (genModelOut env issue_text test_cmd)

/-- The tree after new_branch's git checkout -B. -/
def checkoutTree {τ : Type} (env : AttemptEnv τ) (tree0 : τ) (branch : String) : τ :=
  env.checkout branch tree0

/-- ok_apply, apply_out = apply_patch(repo, patch), on the checked-out tree. -/
def initialApply {τ : Type} (env : AttemptEnv τ) (tree0 : τ)
    (issue_text test_cmd branch : String) : (Bool × String) × τ × Bool :=
  apply_patch env.git (checkoutTree env tree0 branch) (genPatch env issue_text test_cmd)

/-- Whether the initial patch apply succeeded. -/
def initialApplyOk {τ : Type} (env : AttemptEnv τ) (tree0 : τ)
    (issue_text test_cmd branch : String) : Bool :=
  (initialApply env tree0 issue_text test_cmd branch).1.1

/-- traj_log after the initial apply (agent.py line 110). -/
def traj1 {τ : Type} (env : AttemptEnv τ) (tree0 : τ)
    (issue_text test_cmd branch : String) : String :=
  "SYSTEM:\n" ++ genSystem env ++ "\n\nUSER:\n" ++ genUser env issue_text test_cmd ++
    "\n\nMODEL_OUT:\n" ++ genModelOut env issue_text test_cmd ++ "\n\nPATCH_APPLY_OK=" ++
    pyBool (initialApplyOk env tree0 issue_text test_cmd branch) ++ "\nAPPLY_LOG:\n" ++
    (initialApply env tree0 issue_text test_cmd branch).1.2 ++ "\n"

/-- The refine sub-step (agent.py lines 112-118): entered iff the initial
apply failed and self_refine_rounds > 0; one further completion and one
further apply.  Returns the trajectory log so far, the resulting tree, and
the events the sub-step emitted. -/
def refineStage {τ : Type} (env : AttemptEnv τ) (tree0 : τ)
    (issue_text test_cmd branch : String) (rounds : Nat) : String × τ × List Ev :=
  if initialApplyOk env tree0 issue_text test_cmd branch = false ∧ 0 < rounds then
    let rOut := env.complete "Self-refine"
      (SEQUENTIAL_REFINE_INSTRUCTION_1 ++ "\n\nPrevious patch apply failed:\n" ++
        (initialApply env tree0 issue_text test_cmd branch).1.2 ++
        "\n\nReprint a corrected unified diff.")
    let ap2 := apply_patch env.git (initialApply env tree0 issue_text test_cmd branch).2.1
      (extract_patch rOut)
    (traj1 env tree0 issue_text test_cmd branch ++ "\nREFINE1_OUT:\n" ++ rOut ++
       "\nPATCH_APPLY_OK=" ++ pyBool ap2.1.1 ++ "\nAPPLY_LOG:\n" ++ ap2.1.2 ++ "\n",
     ap2.2.1, [Ev.evRefineComplete, Ev.evRefineApply ap2.1.1])
  else
    (traj1 env tree0 issue_text test_cmd branch,
     (initialApply env tree0 issue_text test_cmd branch).2.1, [])

/-- The test run (agent.py line 121): run(test_cmd) on the final tree. -/
def testResult {τ : Type} (env : AttemptEnv τ) (tree0 : τ)
    (issue_text test_cmd branch : String) (rounds : Nat) : Int × String :=
  run test_cmd (env.testOutcome (refineStage env tree0 issue_text test_cmd branch rounds).2.1)

/-- success iff the test command exited 0. -/
def testSuccess {τ : Type} (env : AttemptEnv τ) (tree0 : τ)
    (issue_text test_cmd branch : String) (rounds : Nat) : Bool :=
  (testResult env tree0 issue_text test_cmd branch rounds).1 == 0

/-- The full trajectory log after the test step (agent.py line 122). -/
def trajFull {τ : Type} (env : AttemptEnv τ) (tree0 : τ)
    (issue_text test_cmd branch : String) (rounds : Nat) : String :=
  (refineStage env tree0 issue_text test_cmd branch rounds).1 ++ "\nTEST_SUCCESS=" ++
    pyBool (testSuccess env tree0 issue_text test_cmd branch rounds) ++ "\nTEST_LOG:\n" ++
    (testResult env tree0 issue_text test_cmd branch rounds).2 ++ "\n"

/-- outcome = "success" if success else "failure". -/
def outcomeStr {τ : Type} (env : AttemptEnv τ) (tree0 : τ)
    (issue_text test_cmd branch : String) (rounds : Nat) : String :=
  if testSuccess env tree0 issue_text test_cmd branch rounds then "success" else "failure"

/-- The distillation completion call made inside extract_memory. -/
def distillOut {τ : Type} (env : AttemptEnv τ) (tree0 : τ)
    (issue_text test_cmd branch : String) (rounds : Nat) : String :=
  env.complete "Distill reusable coding strategies as memory."
    ((if outcomeStr env tree0 issue_text test_cmd branch rounds == "success" then
        EXTRACT_SUCCESS_PROMPT
      else EXTRACT_FAILURE_PROMPT) ++
     "\n\nIssue:\n" ++ issue_text ++ "\n\nTrajectory:\n" ++
     trajFull env tree0 issue_text test_cmd branch rounds)

/-- items = extract_memory(llm, issue_text, traj_log, outcome). -/
def distilledItems {τ : Type} (env : AttemptEnv τ) (tree0 : τ)
    (issue_text test_cmd branch : String) (rounds : Nat) : List MemoryItem :=
  extractMemoryItems (distillOut env tree0 issue_text test_cmd branch rounds)
    (outcomeStr env tree0 issue_text test_cmd branch rounds) env.time

/-- attempt_once (agent.py lines 100-135): ensure_git raises unless git
rev-parse exits 0 (modelled as Except.error with the source's message);
otherwise the pipeline runs to completion and returns the result dict, the
ordered event trace, the final tree, and the memory log after add_items. -/
def attempt_once {τ : Type} (env : AttemptEnv τ) (tree0 : τ) (log : List MemoryItem)
    (repo issue_text test_cmd branch : String) (rounds : Nat) :
    Except String (AttemptResult × List Ev × τ × List MemoryItem) :=
  if env.revParseCode = 0 then
    Except.ok
      (⟨branch, testSuccess env tree0 issue_text test_cmd branch rounds,
        (testResult env tree0 issue_text test_cmd branch rounds).2,
        trajFull env tree0 issue_text test_cmd branch rounds,
        env.retrieved,
        distilledItems env tree0 issue_text test_cmd branch rounds⟩,
       [Ev.evSearch, Ev.evGenComplete,
        Ev.evApply (initialApplyOk env tree0 issue_text test_cmd branch)] ++
         (refineStage env tree0 issue_text test_cmd branch rounds).2.2 ++
         [Ev.evTest (testResult env tree0 issue_text test_cmd branch rounds).1, Ev.evDistill,
          Ev.evAdd (distilledItems env tree0 issue_text test_cmd branch rounds).length],
       (refineStage env tree0 issue_text test_cmd branch rounds).2.1,
       add_items log (distilledItems env tree0 issue_text test_cmd branch rounds))
  else
    Except.error (repo ++
      " is not a git repository. Run git init, git add ., git commit first.")

/-- The event trace of an attempt (empty if the repository check failed). -/
def attemptEvs {τ : Type} (env : AttemptEnv τ) (tree0 : τ) (log : List MemoryItem)
    (repo issue_text test_cmd branch : String) (rounds : Nat) : List Ev :=
  match attempt_once env tree0 log repo issue_text test_cmd branch rounds with
  | .ok r => r.2.1
  | .error _ => []

/-- C3: in attempt_once, the refine completion call happens iff the initial
apply failed and the configured refine round count is positive; at most one
refine completion ever occurs; the test command runs regardless of the apply
outcome; and with rounds = 0 no refine completion happens even when the
apply failed. -/
theorem C3_refine_trigger {τ : Type} (env : AttemptEnv τ) (tree0 : τ)
    (log : List MemoryItem) (repo issue_text test_cmd branch : String) (rounds : Nat)
    (hgit : env.revParseCode = 0) :
    (∃ r, attempt_once env tree0 log repo issue_text test_cmd branch rounds =
      Except.ok r) ∧
    (Ev.evRefineComplete ∈ attemptEvs env tree0 log repo issue_text test_cmd branch rounds ↔
      (initialApplyOk env tree0 issue_text test_cmd branch = false ∧ 0 < rounds)) ∧
    (attemptEvs env tree0 log repo issue_text test_cmd branch rounds).count
        Ev.evRefineComplete ≤ 1 ∧
    Ev.evTest (testResult env tree0 issue_text test_cmd branch rounds).1 ∈
      attemptEvs env tree0 log repo issue_text test_cmd branch rounds ∧
    (rounds = 0 →
      Ev.evRefineComplete ∉ attemptEvs env tree0 log repo issue_text test_cmd branch rounds) := by
  have hevs : attemptEvs env tree0 log repo issue_text test_cmd branch rounds =
      [Ev.evSearch, Ev.evGenComplete,
       Ev.evApply (initialApplyOk env tree0 issue_text test_cmd branch)] ++
        (refineStage env tree0 issue_text test_cmd branch rounds).2.2 ++
        [Ev.evTest (testResult env tree0 issue_text test_cmd branch rounds).1, Ev.evDistill,
         Ev.evAdd (distilledItems env tree0 issue_text test_cmd branch rounds).length] := by
    rw [attemptEvs, attempt_once, if_pos hgit]
  refine ⟨⟨_, by rw [attempt_once, if_pos hgit]⟩, ?_, ?_, ?_, ?_⟩
  · rw [hevs]
    by_cases hc : initialApplyOk env tree0 issue_text test_cmd branch = false ∧ 0 < rounds
    · obtain ⟨b, hb⟩ : ∃ b, (refineStage env tree0 issue_text test_cmd branch rounds).2.2 =
          [Ev.evRefineComplete, Ev.evRefineApply b] := by
        rw [refineStage, if_pos hc]
        exact ⟨_, rfl⟩
      exact iff_of_true (by simp [hb]) hc
    · have hb : (refineStage env tree0 issue_text test_cmd branch rounds).2.2 = [] := by
        rw [refineStage, if_neg hc]
      exact iff_of_false (by simp [hb]) hc
  · rw [hevs]
    by_cases hc : initialApplyOk env tree0 issue_text test_cmd branch = false ∧ 0 < rounds
    · obtain ⟨b, hb⟩ : ∃ b, (refineStage env tree0 issue_text test_cmd branch rounds).2.2 =
          [Ev.evRefineComplete, Ev.evRefineApply b] := by
        rw [refineStage, if_pos hc]
        exact ⟨_, rfl⟩
      simp [hb, List.count_append, List.count_cons]
    · have hb : (refineStage env tree0 issue_text test_cmd branch rounds).2.2 = [] := by
        rw [refineStage, if_neg hc]
      simp [hb, List.count_append, List.count_cons]
  · rw [hevs]
    simp
  · intro h0
    have hb : (refineStage env tree0 issue_text test_cmd branch rounds).2.2 = [] := by
      rw [refineStage, if_neg]
      intro hc
      rw [h0] at hc
      exact absurd hc.2 (by decide)
    rw [hevs]
    simp [hb]

/-- A trivial collaborator environment over a unit tree, whose repository
check succeeds, whose completions are empty, and whose apply always fails. -/
def unitEnv : AttemptEnv Unit :=
  { complete := fun _ _ => "",
    retrieved := [],
    revParseCode := 0,
    checkout := fun _ t => t,
    statusOut := "",
    logOut := "",
    git := gitUnit,
    testOutcome := fun _ => ProcOutcome.completed 0 "ok",
    time := 0 }

/-- C3 witness: the theorem applied to a concrete environment with refine
rounds = 0 and a failing initial apply. -/
theorem C3_witness :
    unitEnv.revParseCode = 0 ∧
    ((∃ r, attempt_once unitEnv () [] "demo" "Fix off-by-one in loop" "pytest -q"
        "rb-attempt-1" 0 = Except.ok r) ∧
     (Ev.evRefineComplete ∈
        attemptEvs unitEnv () [] "demo" "Fix off-by-one in loop" "pytest -q" "rb-attempt-1" 0 ↔
       (initialApplyOk unitEnv () "Fix off-by-one in loop" "pytest -q" "rb-attempt-1" = false ∧
        0 < 0)) ∧
     (attemptEvs unitEnv () [] "demo" "Fix off-by-one in loop" "pytest -q"
        "rb-attempt-1" 0).count Ev.evRefineComplete ≤ 1 ∧
     Ev.evTest (testResult unitEnv () "Fix off-by-one in loop" "pytest -q" "rb-attempt-1" 0).1 ∈
       attemptEvs unitEnv () [] "demo" "Fix off-by-one in loop" "pytest -q" "rb-attempt-1" 0 ∧
     (0 = 0 → Ev.evRefineComplete ∉
       attemptEvs unitEnv () [] "demo" "Fix off-by-one in loop" "pytest -q" "rb-attempt-1" 0)) :=
  ⟨rfl, C3_refine_trigger unitEnv () [] "demo" "Fix off-by-one in loop" "pytest -q"
    "rb-attempt-1" 0 rfl⟩

end RB
